import Mathlib

/-!
Verification of the waterfall-style SFU core against its natural-language
specification. Each component that the spec talks about is embedded as an
executable Lean definition translated from the Go source, and the spec's
claims are settled as theorems about those definitions.

Source layout (Go):
  * router           : unnamed/part_000  (`handleMatrixEvent`)
  * peer callbacks   : unnamed/part_001  (`onConnectionStateChanged`, `onDataChannelReady`)
  * published track  : unnamed/part_002  (`processPublisherEvents`)
  * peer             : pkg/peer/peer.go  (`WriteRTCP`, `SendOverDataChannel`)
  * conference       : src/conference/conference.go (`OnNewParticipant`)
-/

namespace SFU

/-! ## Simulcast layers (pkg/webrtc_ext)

The Go code uses `webrtc_ext.SimulcastLayer` with values None/Low/Medium/High. -/

inductive SimulcastLayer where
  | none
  | low
  | medium
  | high
deriving DecidableEq, Repr

/-! ## Data channel state and `SendOverDataChannel` (pkg/peer/peer.go)

`webrtc.DataChannelState` has the four standard values; `SendOverDataChannel`
checks the stored handle and the ready state before attempting `SendText`. -/

inductive DataChannelState where
  | connecting
  | dcOpen
  | closing
  | closed
deriving DecidableEq, Repr

/-- A data channel handle as far as the peer code observes it: just its ready
state (plus a label used only for logging, which we keep to distinguish
concrete channels). -/
structure DataChannel where
  label : String
  readyState : DataChannelState
deriving DecidableEq, Repr

/-- Result of `Peer.SendOverDataChannel`. `sendFailed`/`sentOk` both mean the
send was attempted on the underlying channel; the two error constructors mean
no send was attempted. -/
inductive SendResult where
  | errorNotAvailable
  | errorNotReady
  | sendFailed (msg : String)
  | sentOk
deriving DecidableEq, Repr

/-- Translation of `Peer.SendOverDataChannel` (pkg/peer/peer.go, lines 140-157).
The mutex is irrelevant to the sequential contract; `sendErr` models the
outcome of the underlying `dataChannel.SendText` call. -/
def sendOverDataChannel (dataChannel : Option DataChannel) (sendErr : Option String) : SendResult :=
  match dataChannel with
  | Option.none => SendResult.errorNotAvailable
  | some dc =>
    if dc.readyState ≠ DataChannelState.dcOpen then
      SendResult.errorNotReady
    else
      match sendErr with
      | some msg => SendResult.sendFailed msg
      | Option.none => SendResult.sentOk

/-- True exactly when `sendOverDataChannel` reached the `SendText` call. -/
def sendAttempted (r : SendResult) : Bool :=
  match r with
  | SendResult.sendFailed _ => true
  | SendResult.sentOk => true
  | _ => false

/-! ## Data-channel-ready callback (unnamed/part_001, `onDataChannelReady`) -/

/-- The part of the peer state touched by the data channel callback: the
single (mutex-guarded) data channel pointer. -/
structure PeerDataChannelSlot where
  dataChannel : Option DataChannel
deriving DecidableEq, Repr

/-- What the callback did, observationally: either it closed the previously
stored channel and discarded the announced one, or it stored the announced
channel and registered the OnOpen/OnMessage/OnError/OnClose callbacks on it. -/
inductive DataChannelAction where
  | closedExisting (old : DataChannel)
  | storedAndRegistered (dc : DataChannel)
deriving DecidableEq, Repr

/-- Translation of `Peer.onDataChannelReady` (unnamed/part_001, lines 87-118).
If a channel is already stored, the stored one is closed, the slot is reset to
nil and the function returns without touching the new channel; otherwise the
new channel is stored and its callbacks are registered. -/
def onDataChannelReady (s : PeerDataChannelSlot) (dc : DataChannel) :
    PeerDataChannelSlot × DataChannelAction :=
  match s.dataChannel with
  | some old => ({ dataChannel := Option.none }, DataChannelAction.closedExisting old)
  | Option.none => ({ dataChannel := some dc }, DataChannelAction.storedAndRegistered dc)

/-! ## Connection state callback (unnamed/part_001, `onConnectionStateChanged`) -/

inductive PeerConnectionState where
  | stateNew
  | connecting
  | connected
  | disconnected
  | failed
  | closed
deriving DecidableEq, Repr

/-- Hangup reasons from the Matrix `m.call.hangup` taxonomy that the spec
mentions (`event.CallHangupReason`). -/
inductive HangupReason where
  | userHangup
  | iceFailed
  | keepAliveTimeout
deriving DecidableEq, Repr

/-- Messages that the connection-state callback can post to the peer sink. -/
inductive PeerStateMessage where
  | leftTheCall (reason : HangupReason)
  | joinedTheCall
deriving DecidableEq, Repr

/-- Translation of `Peer.onConnectionStateChanged` (unnamed/part_001, lines
75-84): Failed/Disconnected/Closed all send `LeftTheCall` with
`event.CallHangupUserHangup`; Connected sends `JoinedTheCall`; other states
send nothing. -/
def onConnectionStateChanged (state : PeerConnectionState) : Option PeerStateMessage :=
  match state with
  | PeerConnectionState.failed => some (PeerStateMessage.leftTheCall HangupReason.userHangup)
  | PeerConnectionState.disconnected => some (PeerStateMessage.leftTheCall HangupReason.userHangup)
  | PeerConnectionState.closed => some (PeerStateMessage.leftTheCall HangupReason.userHangup)
  | PeerConnectionState.connected => some PeerStateMessage.joinedTheCall
  | _ => Option.none

end SFU

/-! ## Claim theorems for the peer callbacks -/

open SFU

/-- C8: `SendOverDataChannel` fails with `data_channel_not_available` exactly
when the peer holds no data channel handle, fails with
`data_channel_not_ready` exactly when a handle exists whose ready state is not
open, and attempts the send exactly when the channel exists and is open. -/
theorem sendOverDataChannel_error_contract (dc : Option DataChannel) (sendErr : Option String) :
    (sendOverDataChannel dc sendErr = SendResult.errorNotAvailable ↔ dc = Option.none) ∧
    (sendOverDataChannel dc sendErr = SendResult.errorNotReady ↔
      ∃ d, dc = some d ∧ d.readyState ≠ DataChannelState.dcOpen) ∧
    (sendAttempted (sendOverDataChannel dc sendErr) = true ↔
      ∃ d, dc = some d ∧ d.readyState = DataChannelState.dcOpen) := by
  rcases dc with _ | d
  · refine ⟨by simp [sendOverDataChannel], ?_, ?_⟩
    · simp [sendOverDataChannel, sendAttempted]
    · simp [sendOverDataChannel, sendAttempted]
  · by_cases hs : d.readyState = DataChannelState.dcOpen
    · rcases sendErr with _ | msg
      · refine ⟨?_, ?_, ?_⟩
        · simp [sendOverDataChannel, hs]
        · simp [sendOverDataChannel, hs]
        · simp [sendOverDataChannel, hs, sendAttempted]
      · refine ⟨?_, ?_, ?_⟩
        · simp [sendOverDataChannel, hs]
        · simp [sendOverDataChannel, hs]
        · simp [sendOverDataChannel, hs, sendAttempted]
    · refine ⟨?_, ?_, ?_⟩
      · simp [sendOverDataChannel, hs]
      · simp [sendOverDataChannel, hs]
      · simp [sendOverDataChannel, hs, sendAttempted]

/-- C10: when the data-channel-ready callback fires while a channel is already
stored, the stored channel is closed, the slot is reset to nil, the announced
channel is discarded without its callbacks being registered, and a subsequent
`SendOverDataChannel` fails with `data_channel_not_available`. -/
theorem onDataChannelReady_duplicate_resets (s : PeerDataChannelSlot) (dc old : DataChannel)
    (h : s.dataChannel = some old) :
    (onDataChannelReady s dc).1.dataChannel = Option.none ∧
    (onDataChannelReady s dc).2 = DataChannelAction.closedExisting old ∧
    (∀ sendErr, sendOverDataChannel (onDataChannelReady s dc).1.dataChannel sendErr =
      SendResult.errorNotAvailable) := by
  refine ⟨?_, ?_, ?_⟩ <;> simp [onDataChannelReady, h, sendOverDataChannel]

/-- Closed instance of the C10 theorem: a peer that already stores an open
channel, upon a second announcement, ends with an empty slot and
`not_available` on send. -/
theorem onDataChannelReady_duplicate_resets_witness :
    (onDataChannelReady ⟨some ⟨"dc0", DataChannelState.dcOpen⟩⟩ ⟨"dc1", DataChannelState.dcOpen⟩).1.dataChannel
        = Option.none ∧
    (onDataChannelReady ⟨some ⟨"dc0", DataChannelState.dcOpen⟩⟩ ⟨"dc1", DataChannelState.dcOpen⟩).2
        = DataChannelAction.closedExisting ⟨"dc0", DataChannelState.dcOpen⟩ ∧
    (∀ sendErr, sendOverDataChannel
        (onDataChannelReady ⟨some ⟨"dc0", DataChannelState.dcOpen⟩⟩ ⟨"dc1", DataChannelState.dcOpen⟩).1.dataChannel
        sendErr = SendResult.errorNotAvailable) :=
  onDataChannelReady_duplicate_resets ⟨some ⟨"dc0", DataChannelState.dcOpen⟩⟩
    ⟨"dc1", DataChannelState.dcOpen⟩ ⟨"dc0", DataChannelState.dcOpen⟩ rfl

/-- C7 counterexample: on a mid-call connection failure the peer emits
`left_the_call(user_hangup)` — the very same message it emits for a closed
(user-initiated) connection — so the reason does not distinguish peer-failure
from user-hangup. -/
theorem onConnectionStateChanged_failed_is_userHangup :
    onConnectionStateChanged PeerConnectionState.failed
        = some (PeerStateMessage.leftTheCall HangupReason.userHangup) ∧
    onConnectionStateChanged PeerConnectionState.failed
        = onConnectionStateChanged PeerConnectionState.closed := by
  exact ⟨rfl, rfl⟩

/-- C7 (amended): whenever the underlying connection transitions to failed,
disconnected or closed, the peer emits `left_the_call` with reason
`user_hangup`; the handler never emits `ice_failed`, so peer-failure is not
distinguished from user-hangup. -/
theorem onConnectionStateChanged_always_userHangup :
    onConnectionStateChanged PeerConnectionState.failed
        = some (PeerStateMessage.leftTheCall HangupReason.userHangup) ∧
    onConnectionStateChanged PeerConnectionState.disconnected
        = some (PeerStateMessage.leftTheCall HangupReason.userHangup) ∧
    onConnectionStateChanged PeerConnectionState.closed
        = some (PeerStateMessage.leftTheCall HangupReason.userHangup) ∧
    (∀ s : PeerConnectionState, Option.all
        (fun m => m != PeerStateMessage.leftTheCall HangupReason.iceFailed)
        (onConnectionStateChanged s) = true) := by
  refine ⟨rfl, rfl, rfl, ?_⟩
  intro s
  cases s <;> decide

namespace SFU

/-! ## Router (unnamed/part_000, `handleMatrixEvent`)

The router keeps a map from conference id to the conference's message sink.
A sink is modelled by whether it is sealed: `Send` on a sealed sink fails,
which makes the router delete the entry and re-process the event. The Go
variable `conference` is a nullable pointer; calling `Send` on the nil
pointer dereferences nil, which we record as the `nilSinkDereference`
action. -/

/-- The raw `conf_id` field of an incoming to-device event: absent, present
but not a string, or a string. -/
inductive RawConfID where
  | absent
  | notAString
  | str (s : String)
deriving DecidableEq, Repr

/-- The four to-device call event kinds the router switches on, plus the
default case. -/
inductive EventKind where
  | callInvite
  | callCandidates
  | callSelectAnswer
  | callHangup
  | otherEvent
deriving DecidableEq, Repr

structure MatrixEvent where
  kind : EventKind
  rawConfID : RawConfID
deriving DecidableEq, Repr

/-- A conference sink as the router observes it: `Send` fails iff the sink is
sealed (the conference ended). -/
structure ConferenceSink where
  sealed : Bool
deriving DecidableEq, Repr

structure RouterState where
  conferences : List (String × ConferenceSink)
deriving DecidableEq, Repr

/-- What `handleMatrixEvent` did with the event. -/
inductive RouteAction where
  | droppedNoConfID
  | droppedNonStringConfID
  | createdConference
  | warnedUnknownConference
  | forwarded (confID : String)
  | nilSinkDereference
  | warnedUnexpectedKind
  | outOfFuel
deriving DecidableEq, Repr

def lookupConference (l : List (String × ConferenceSink)) (confID : String) :
    Option ConferenceSink :=
  match l with
  | [] => Option.none
  | (k, v) :: rest => if k = confID then some v else lookupConference rest confID

def removeConference (l : List (String × ConferenceSink)) (confID : String) :
    List (String × ConferenceSink) :=
  match l with
  | [] => []
  | (k, v) :: rest =>
    if k = confID then removeConference rest confID else (k, v) :: removeConference rest confID

/-- Translation of `Router.handleMatrixEvent` (unnamed/part_000, lines 74-153),
with a fuel parameter bounding the `sendToConference`-failure recursion (the
Go code recurses into `handleMatrixEvent` after evicting a sealed entry).

The branch structure mirrors the Go exactly: the guard on line 97 is
`conference == nil && evt.Type != ToDeviceCallInvite`, and the
conference-creation code sits inside it under the condition
`evt.Type == ToDeviceCallInvite` — which contradicts the guard, so the
creation branch is unreachable. An invite for an unknown conference therefore
falls through to the switch, where `sendToConference` calls `Send` on the nil
conference pointer. -/
def handleMatrixEventFuel : Nat → RouterState → MatrixEvent → RouterState × RouteAction
  | 0, s, _ => (s, RouteAction.outOfFuel)
  | fuel + 1, s, evt =>
    match evt.rawConfID with
    | RawConfID.absent => (s, RouteAction.droppedNoConfID)
    | RawConfID.notAString => (s, RouteAction.droppedNonStringConfID)
    | RawConfID.str confID =>
      let conference := lookupConference s.conferences confID
      if conference = Option.none ∧ evt.kind ≠ EventKind.callInvite then
        if evt.kind = EventKind.callInvite then
          ({ conferences := (confID, ⟨false⟩) :: s.conferences }, RouteAction.createdConference)
        else
          (s, RouteAction.warnedUnknownConference)
      else
        match evt.kind with
        | EventKind.callInvite | EventKind.callCandidates
        | EventKind.callSelectAnswer | EventKind.callHangup =>
          match conference with
          | Option.none => (s, RouteAction.nilSinkDereference)
          | some sink =>
            if sink.sealed then
              handleMatrixEventFuel fuel { conferences := removeConference s.conferences confID } evt
            else
              (s, RouteAction.forwarded confID)
        | EventKind.otherEvent => (s, RouteAction.warnedUnexpectedKind)

/-- The fuel `length + 1` suffices: each recursion strictly shrinks the map. -/
def handleMatrixEvent (s : RouterState) (evt : MatrixEvent) : RouterState × RouteAction :=
  handleMatrixEventFuel (s.conferences.length + 1) s evt

/-- True exactly on the action of the (unreachable) conference-creation
branch. -/
def isCreatedConference (a : RouteAction) : Bool :=
  match a with
  | RouteAction.createdConference => true
  | _ => false

end SFU

/-- C1: the code never takes the conference-creation branch, contradicting the
claim. Evaluated at the failing input — a `call_invite` whose `conf_id` names
no registered conference — the router leaves its map unchanged and calls
`Send` on a nil conference pointer instead of starting and registering a new
conference; moreover no input whatsoever produces the creation action, since
the creation branch sits under mutually contradictory conditions. -/
theorem router_invite_never_creates_conference :
    handleMatrixEvent ⟨[]⟩ ⟨EventKind.callInvite, RawConfID.str "conf1"⟩
        = (⟨[]⟩, RouteAction.nilSinkDereference) ∧
    (∀ fuel s evt, isCreatedConference (handleMatrixEventFuel fuel s evt).2 = false) := by
  refine ⟨rfl, ?_⟩
  intro fuel
  induction fuel with
  | zero => intro s evt; rfl
  | succ n ih =>
    intro s evt
    rcases evt with ⟨kind, raw⟩
    rcases raw with _ | _ | confID
    · rfl
    · rfl
    · show isCreatedConference (handleMatrixEventFuel (n + 1) s ⟨kind, RawConfID.str confID⟩).2 = false
      rw [handleMatrixEventFuel]
      rcases h : lookupConference s.conferences confID with _ | sink
      · rcases hk : kind with _ | _ | _ | _ | _ <;>
          simp [h, hk, isCreatedConference]
      · rcases hk : kind with _ | _ | _ | _ | _ <;>
          rcases hs : sink.sealed <;>
            (simp [h, hk, hs, isCreatedConference] <;> exact ih _ _)

namespace SFU

/-! ## Peer `WriteRTCP` (pkg/peer/peer.go, lines 103-137)

`WriteRTCP` locates the RTP receiver whose track id and simulcast layer
(derived from the RID) match the given track info, takes that track's SSRC,
and builds `toSend := make([]rtcp.Packet, len(packets))`, assigning only the
indices whose packet is a PLI or FIR; the resulting slice — nil entries
included — is handed to `peerConnection.WriteRTCP`. A slot left nil is
modelled as `Option.none`. -/

/-- The `packet.Type` tag of `common.RTCPPacket` as far as `WriteRTCP`
distinguishes it. `otherKind` stands for any RTCP packet that is neither a
PLI nor a FIR (e.g. a receiver report). -/
inductive RTCPKind where
  | pictureLossIndicator
  | fullIntraRequest
  | otherKind
deriving DecidableEq, Repr

/-- An incoming RTCP packet: its kind and the media SSRC carried in its
content (which `WriteRTCP` overwrites for PLI/FIR). -/
structure RTCPPacket where
  kind : RTCPKind
  mediaSSRC : Nat
deriving DecidableEq, Repr

/-- An outgoing RTCP packet after the rewrite. -/
inductive OutRTCPPacket where
  | pli (mediaSSRC : Nat)
  | fir (mediaSSRC : Nat)
deriving DecidableEq, Repr

/-- A receiver's remote track as `WriteRTCP` inspects it: track id, the
simulcast layer computed by `RIDToSimulcastLayer` from its RID, and its SSRC.
Only receivers with a non-nil track are listed. -/
structure ReceiverTrack where
  trackID : String
  layer : SimulcastLayer
  ssrc : Nat
deriving DecidableEq, Repr

/-- The `(TrackID, Layer)` pair of `ExtendedTrackInfo` used for the lookup. -/
structure TrackLookup where
  trackID : String
  layer : SimulcastLayer
deriving DecidableEq, Repr

inductive PeerError where
  | trackNotFound
deriving DecidableEq, Repr

/-- Translation of `slices.IndexFunc` + `GetReceivers` in `WriteRTCP`: the
first receiver whose track id and RID-derived layer match. -/
def findReceiver (receivers : List ReceiverTrack) (info : TrackLookup) : Option ReceiverTrack :=
  receivers.find? (fun r => r.trackID == info.trackID && r.layer == info.layer)

/-- Translation of the body of the `for i, packet := range packets` loop: a
PLI slot becomes a fresh PLI carrying the receiver's SSRC, a FIR slot becomes
the FIR with its media SSRC rewritten, and any other slot keeps the zero
value `nil` of `make([]rtcp.Packet, len(packets))`. -/
def rewritePacket (ssrc : Nat) (p : RTCPPacket) : Option OutRTCPPacket :=
  match p.kind with
  | RTCPKind.pictureLossIndicator => some (OutRTCPPacket.pli ssrc)
  | RTCPKind.fullIntraRequest => some (OutRTCPPacket.fir ssrc)
  | RTCPKind.otherKind => Option.none

/-- Translation of `Peer.WriteRTCP` (pkg/peer/peer.go, lines 103-137). The
returned list is exactly the `toSend` slice handed to
`peerConnection.WriteRTCP`; its length always equals the input length. -/
def writeRTCP (receivers : List ReceiverTrack) (info : TrackLookup)
    (packets : List RTCPPacket) : Except PeerError (List (Option OutRTCPPacket)) :=
  match findReceiver receivers info with
  | Option.none => Except.error PeerError.trackNotFound
  | some r => Except.ok (packets.map (rewritePacket r.ssrc))

/-- The media SSRC of an outgoing packet. -/
def outMediaSSRC (p : OutRTCPPacket) : Nat :=
  match p with
  | OutRTCPPacket.pli s => s
  | OutRTCPPacket.fir s => s

end SFU

/-- C4: evaluated at the failing input. With a matching receiver present,
every PLI/FIR in the outgoing slice indeed carries the receiver track's SSRC
(the bogus SSRC 777 of the incoming PLI is rewritten to 42), but a packet of
any other RTCP kind is NOT dropped: the slice handed to the connection keeps a
nil slot for it (`make([]rtcp.Packet, n)` + selective assignment), so for the
single receiver-report input the connection receives `[nil]`, not `[]`. -/
theorem writeRTCP_other_kind_not_dropped :
    writeRTCP [⟨"track0", SimulcastLayer.low, 42⟩] ⟨"track0", SimulcastLayer.low⟩
        [⟨RTCPKind.otherKind, 777⟩] = Except.ok [Option.none] ∧
    writeRTCP [⟨"track0", SimulcastLayer.low, 42⟩] ⟨"track0", SimulcastLayer.low⟩
        [⟨RTCPKind.pictureLossIndicator, 777⟩, ⟨RTCPKind.fullIntraRequest, 777⟩]
        = Except.ok [some (OutRTCPPacket.pli 42), some (OutRTCPPacket.fir 42)] ∧
    Except.ok [Option.none] ≠ (Except.ok [] : Except PeerError (List (Option OutRTCPPacket))) := by
  exact ⟨rfl, rfl, by simp⟩

namespace SFU

/-! ## Conference `OnNewParticipant` (src/conference/conference.go, lines 52-89)

The conference keeps `participants : map[peer.ID]*Participant`. On an invite
it iterates over the map: a participant with the same device id and the same
remote session id causes an immediate rejection (log + return, map
untouched); a participant with the same device id but a different session id
has its peer terminated and the loop continues. After the loop a peer is
constructed from the offer; on failure the invite is aborted, otherwise the
participant is registered and the SDP answer is sent via the signaler.

The Go map iteration order is unspecified; we embed the map as an
association list iterated in list order. Whether a rejection occurs does not
depend on that order (it depends only on whether a duplicate entry exists),
which the `scanForInvite_rejects_iff` lemma makes explicit. -/

structure ParticipantID where
  userID : String
  deviceID : String
  callID : String
deriving DecidableEq, Repr

/-- The per-participant record as far as `OnNewParticipant` consults it. -/
structure ParticipantRecord where
  remoteSessionID : String
deriving DecidableEq, Repr

structure ConferenceState where
  participants : List (ParticipantID × ParticipantRecord)
deriving DecidableEq, Repr

/-- The fields of `CallInviteEventContent` that `OnNewParticipant` reads. -/
structure InviteContent where
  deviceID : String
  senderSessionID : String
deriving DecidableEq, Repr

/-- The loop over `c.participants` (conference.go, lines 56-68): returns
whether the invite is rejected and the list of same-device participants whose
peer was terminated before the loop ended. -/
def scanForInvite : List (ParticipantID × ParticipantRecord) → String → String →
    Bool × List ParticipantID
  | [], _, _ => (false, [])
  | (pid, record) :: rest, deviceID, sessionID =>
    if pid.deviceID = deviceID then
      if record.remoteSessionID = sessionID then
        (true, [])
      else
        ((scanForInvite rest deviceID sessionID).1,
          pid :: (scanForInvite rest deviceID sessionID).2)
    else
      scanForInvite rest deviceID sessionID

/-- Go's `c.participants[participantID] = participant`: overwrite the entry if
the key is present, append otherwise. -/
def storeParticipant : List (ParticipantID × ParticipantRecord) → ParticipantID →
    ParticipantRecord → List (ParticipantID × ParticipantRecord)
  | [], pid, record => [(pid, record)]
  | (k, v) :: rest, pid, record =>
    if k = pid then (pid, record) :: rest else (k, v) :: storeParticipant rest pid record

inductive InviteOutcome where
  | rejectedDuplicate
  | peerCreationFailed
  | registered
deriving DecidableEq, Repr

structure InviteResult where
  state : ConferenceState
  outcome : InviteOutcome
  terminatedPeers : List ParticipantID
  answerSent : Bool
deriving DecidableEq, Repr

/-- Translation of `Conference.OnNewParticipant` (conference.go, lines 52-89).
`newPeerOk` models whether `peer.NewPeer` succeeds on the offer (SDP/ICE
failures abort the invite with no registration and no answer). -/
def onNewParticipant (s : ConferenceState) (pid : ParticipantID) (invite : InviteContent)
    (newPeerOk : Bool) : InviteResult :=
  let (rejected, terminated) := scanForInvite s.participants invite.deviceID invite.senderSessionID
  if rejected then
    { state := s, outcome := InviteOutcome.rejectedDuplicate,
      terminatedPeers := terminated, answerSent := false }
  else if newPeerOk then
    { state := ⟨storeParticipant s.participants pid ⟨invite.senderSessionID⟩⟩,
      outcome := InviteOutcome.registered,
      terminatedPeers := terminated, answerSent := true }
  else
    { state := s, outcome := InviteOutcome.peerCreationFailed,
      terminatedPeers := terminated, answerSent := false }

/-- Whether some registered participant matches the invite's device and
session — the rejection condition. -/
def hasDuplicate (l : List (ParticipantID × ParticipantRecord))
    (deviceID sessionID : String) : Bool :=
  l.any (fun p => p.1.deviceID == deviceID && p.2.remoteSessionID == sessionID)

theorem scanForInvite_rejects_iff (l : List (ParticipantID × ParticipantRecord))
    (deviceID sessionID : String) :
    (scanForInvite l deviceID sessionID).1 = hasDuplicate l deviceID sessionID := by
  induction l with
  | nil => rfl
  | cons head rest ih =>
    rcases head with ⟨pid, record⟩
    by_cases hd : pid.deviceID = deviceID
    · by_cases hs : record.remoteSessionID = sessionID
      · simp [scanForInvite, hasDuplicate, hd, hs]
      · simp [scanForInvite, hasDuplicate, hd, hs, ih]
    · simp [scanForInvite, hasDuplicate, hd, ih]

theorem scanForInvite_terminates_same_device (deviceID sessionID : String) :
    ∀ l : List (ParticipantID × ParticipantRecord),
      hasDuplicate l deviceID sessionID = false →
      ∀ pid record, (pid, record) ∈ l → pid.deviceID = deviceID →
        pid ∈ (scanForInvite l deviceID sessionID).2 := by
  intro l
  induction l with
  | nil =>
    intro _ pid record hm
    cases hm
  | cons head rest ih =>
    rcases head with ⟨hpid, hrecord⟩
    intro hdup pid record hm hdev
    have hsplit : (hpid.deviceID == deviceID && hrecord.remoteSessionID == sessionID) = false ∧
        hasDuplicate rest deviceID sessionID = false := by
      have hc := hdup
      simp only [hasDuplicate, List.any_cons, Bool.or_eq_false_iff] at hc
      exact hc
    obtain ⟨hhead, hrest⟩ := hsplit
    by_cases hheadDev : hpid.deviceID = deviceID
    · have hheadSess : ¬hrecord.remoteSessionID = sessionID := by
        intro hEq
        rw [hheadDev, hEq] at hhead
        simp at hhead
      rcases List.mem_cons.mp hm with hm | hm
      · have hp : pid = hpid := congrArg Prod.fst hm
        subst hp
        simp [scanForInvite, hheadDev, hheadSess]
      · have hmem := ih hrest pid record hm hdev
        simp [scanForInvite, hheadDev, hheadSess]
        exact Or.inr hmem
    · rcases List.mem_cons.mp hm with hm | hm
      · have hp : pid = hpid := congrArg Prod.fst hm
        exact absurd (hp ▸ hdev) hheadDev
      · have hmem := ih hrest pid record hm hdev
        simpa [scanForInvite, hheadDev] using hmem

theorem storeParticipant_mem (l : List (ParticipantID × ParticipantRecord))
    (pid : ParticipantID) (record : ParticipantRecord) :
    (pid, record) ∈ storeParticipant l pid record := by
  induction l with
  | nil => simp [storeParticipant]
  | cons head rest ih =>
    rcases head with ⟨k, v⟩
    by_cases hk : k = pid
    · simp [storeParticipant, hk]
    · simp [storeParticipant, hk]
      right
      exact ih

end SFU

/-- C3: a `call_invite` is rejected — with the participant map unchanged —
exactly when some registered participant already has the invite's device id
and remote session id; otherwise a peer is constructed and, when that
succeeds, the participant is registered and the SDP answer is sent via the
signaler. -/
theorem onNewParticipant_duplicate_contract (s : ConferenceState) (pid : ParticipantID)
    (invite : InviteContent) (newPeerOk : Bool) :
    (hasDuplicate s.participants invite.deviceID invite.senderSessionID = true →
      (onNewParticipant s pid invite newPeerOk).outcome = InviteOutcome.rejectedDuplicate ∧
      (onNewParticipant s pid invite newPeerOk).state = s ∧
      (onNewParticipant s pid invite newPeerOk).answerSent = false) ∧
    (hasDuplicate s.participants invite.deviceID invite.senderSessionID = false →
      newPeerOk = true →
      (onNewParticipant s pid invite newPeerOk).outcome = InviteOutcome.registered ∧
      (pid, ⟨invite.senderSessionID⟩) ∈ (onNewParticipant s pid invite newPeerOk).state.participants ∧
      (onNewParticipant s pid invite newPeerOk).answerSent = true) := by
  constructor
  · intro hdup
    have hscan : (scanForInvite s.participants invite.deviceID invite.senderSessionID).1 = true := by
      rw [scanForInvite_rejects_iff]; exact hdup
    refine ⟨?_, ?_, ?_⟩ <;> simp [onNewParticipant, hscan]
  · intro hdup hok
    have hscan : (scanForInvite s.participants invite.deviceID invite.senderSessionID).1 = false := by
      rw [scanForInvite_rejects_iff]; exact hdup
    subst hok
    refine ⟨?_, ?_, ?_⟩ <;>
      simp [onNewParticipant, hscan, storeParticipant_mem]

/-- Closed instance of the C3 theorem: the second invite with an identical
(device, session) pair is rejected and the participant map — here a single
registered participant — is unchanged. -/
theorem onNewParticipant_duplicate_contract_witness :
    (onNewParticipant ⟨[(⟨"@alice", "DEV1", "call1"⟩, ⟨"sess1"⟩)]⟩
        ⟨"@alice", "DEV1", "call1"⟩ ⟨"DEV1", "sess1"⟩ true).outcome
      = InviteOutcome.rejectedDuplicate ∧
    (onNewParticipant ⟨[(⟨"@alice", "DEV1", "call1"⟩, ⟨"sess1"⟩)]⟩
        ⟨"@alice", "DEV1", "call1"⟩ ⟨"DEV1", "sess1"⟩ true).state
      = ⟨[(⟨"@alice", "DEV1", "call1"⟩, ⟨"sess1"⟩)]⟩ ∧
    (onNewParticipant ⟨[(⟨"@alice", "DEV1", "call1"⟩, ⟨"sess1"⟩)]⟩
        ⟨"@alice", "DEV1", "call1"⟩ ⟨"DEV1", "sess1"⟩ true).answerSent = false :=
  (onNewParticipant_duplicate_contract ⟨[(⟨"@alice", "DEV1", "call1"⟩, ⟨"sess1"⟩)]⟩
    ⟨"@alice", "DEV1", "call1"⟩ ⟨"DEV1", "sess1"⟩ true).1 (by decide)

/-- C9 counterexample: the claim fails when, besides the same-device
participant with a differing session id, another same-device participant with
the SAME session id is registered. Here @alice holds device DEV1 with session
s1 (differing from the invite's s2) — the claim's premise — yet the invite is
rejected and nothing is registered, because @bob also holds DEV1 with exactly
session s2. -/
theorem onNewParticipant_stale_session_counterexample :
    (⟨⟨"@alice", "DEV1", "call1"⟩, ⟨"s1"⟩⟩ : ParticipantID × ParticipantRecord) ∈
      (⟨[(⟨"@alice", "DEV1", "call1"⟩, ⟨"s1"⟩), (⟨"@bob", "DEV1", "call2"⟩, ⟨"s2"⟩)]⟩ :
        ConferenceState).participants ∧
    ("s1" : String) ≠ "s2" ∧
    (onNewParticipant ⟨[(⟨"@alice", "DEV1", "call1"⟩, ⟨"s1"⟩), (⟨"@bob", "DEV1", "call2"⟩, ⟨"s2"⟩)]⟩
        ⟨"@carol", "DEV1", "call3"⟩ ⟨"DEV1", "s2"⟩ true).outcome
      = InviteOutcome.rejectedDuplicate ∧
    (onNewParticipant ⟨[(⟨"@alice", "DEV1", "call1"⟩, ⟨"s1"⟩), (⟨"@bob", "DEV1", "call2"⟩, ⟨"s2"⟩)]⟩
        ⟨"@carol", "DEV1", "call3"⟩ ⟨"DEV1", "s2"⟩ true).state
      = ⟨[(⟨"@alice", "DEV1", "call1"⟩, ⟨"s1"⟩), (⟨"@bob", "DEV1", "call2"⟩, ⟨"s2"⟩)]⟩ := by
  refine ⟨by decide, by decide, by decide, by decide⟩

/-- C9 (amended): if a `call_invite` names a device that has a registered
participant with a differing remote session id, and NO registered participant
matches both the invite's device and session, then every same-device
participant's peer is terminated and — when peer creation succeeds — the
invite proceeds: the new participant is registered and the invite is not
rejected. -/
theorem onNewParticipant_stale_session_terminates (s : ConferenceState) (pid : ParticipantID)
    (invite : InviteContent)
    (hnodup : hasDuplicate s.participants invite.deviceID invite.senderSessionID = false) :
    (∀ q record, (q, record) ∈ s.participants → q.deviceID = invite.deviceID →
      q ∈ (onNewParticipant s pid invite true).terminatedPeers) ∧
    (onNewParticipant s pid invite true).outcome = InviteOutcome.registered ∧
    (pid, ⟨invite.senderSessionID⟩) ∈ (onNewParticipant s pid invite true).state.participants := by
  have hscan : (scanForInvite s.participants invite.deviceID invite.senderSessionID).1 = false := by
    rw [scanForInvite_rejects_iff]; exact hnodup
  refine ⟨?_, ?_, ?_⟩
  · intro q record hq hdev
    have := scanForInvite_terminates_same_device invite.deviceID invite.senderSessionID
      s.participants hnodup q record hq hdev
    simpa [onNewParticipant, hscan] using this
  · simp [onNewParticipant, hscan]
  · simp [onNewParticipant, hscan, storeParticipant_mem]

/-- Closed instance of the amended C9 theorem: a same-device stale-session
participant is terminated and the inviter is registered. -/
theorem onNewParticipant_stale_session_terminates_witness :
    (⟨"@alice", "DEV1", "call1"⟩ : ParticipantID) ∈
      (onNewParticipant ⟨[(⟨"@alice", "DEV1", "call1"⟩, ⟨"s1"⟩)]⟩
        ⟨"@alice", "DEV1", "call1"⟩ ⟨"DEV1", "s2"⟩ true).terminatedPeers ∧
    (onNewParticipant ⟨[(⟨"@alice", "DEV1", "call1"⟩, ⟨"s1"⟩)]⟩
        ⟨"@alice", "DEV1", "call1"⟩ ⟨"DEV1", "s2"⟩ true).outcome = InviteOutcome.registered ∧
    (⟨⟨"@alice", "DEV1", "call1"⟩, ⟨"s2"⟩⟩ : ParticipantID × ParticipantRecord) ∈
      (onNewParticipant ⟨[(⟨"@alice", "DEV1", "call1"⟩, ⟨"s1"⟩)]⟩
        ⟨"@alice", "DEV1", "call1"⟩ ⟨"DEV1", "s2"⟩ true).state.participants := by
  have T := onNewParticipant_stale_session_terminates
    ⟨[(⟨"@alice", "DEV1", "call1"⟩, ⟨"s1"⟩)]⟩ ⟨"@alice", "DEV1", "call1"⟩ ⟨"DEV1", "s2"⟩
    (by decide)
  exact ⟨T.1 ⟨"@alice", "DEV1", "call1"⟩ ⟨"s1"⟩ (by decide) (by decide), T.2.1, T.2.2⟩


namespace SFU

/-! ## Published track: publisher stall handling (unnamed/part_002)

`PublishedTrack` keeps a map of video publishers per simulcast layer and a
map of subscriptions (subscriber id → subscription with its `currentLayer`).
`processPublisherEvents` reacts to a publisher's `StatusStalled` (lines
86-128): if the source is muted the event is ignored; otherwise the
subscriptions currently on the stalled layer are removed from that publisher
and either re-attached to the `low` publisher (marking them `low`) when one
exists, or marked `currentLayer = none`.

Publishers are embedded as a function from layer to an optional list of
attached subscription sinks (Go: `map[SimulcastLayer]*Publisher` together
with each publisher's subscription set); subscriptions as an association
list from subscriber id to `currentLayer`. -/

structure PublishedTrackState where
  muted : Bool
  publishers : SimulcastLayer → Option (List Nat)
  subscriptions : List (Nat × SimulcastLayer)

/-- The ids collected via `getSubscriptionByLayer(pubLayer)` (lines 104-108 +
178-188): subscriptions whose `currentLayer` equals the stalled layer. -/
def stalledSubscriberIDs (s : PublishedTrackState) (pubLayer : SimulcastLayer) : List Nat :=
  (s.subscriptions.filter (fun p => p.2 == pubLayer)).map Prod.fst

/-- The effect of `pub.RemoveSubscription(subscriptions...)` (line 110) on the
publisher map: the collected sinks leave the stalled publisher's set; other
publishers are untouched. -/
def removeStalled (s : PublishedTrackState) (pubLayer : SimulcastLayer) :
    SimulcastLayer → Option (List Nat) := fun l =>
  if l = pubLayer then
    (s.publishers l).map
      (fun sinks => sinks.filter (fun i => !((stalledSubscriberIDs s pubLayer).contains i)))
  else s.publishers l

/-- Translation of the `StatusStalled` arm of
`PublishedTrack.processPublisherEvents` (unnamed/part_002, lines 89-128):
ignore when muted; otherwise remove the dependent subscriptions from the
stalled publisher, then — matching on `p.video.publishers[Low]` — either
append them to the low publisher's set and mark them `low`, or mark them
`none`. -/
def handleStalled (s : PublishedTrackState) (pubLayer : SimulcastLayer) : PublishedTrackState :=
  if s.muted then s
  else
    match s.publishers SimulcastLayer.low with
    | some _ =>
      { s with
        publishers := fun l =>
          if l = SimulcastLayer.low then
            (removeStalled s pubLayer l).map (fun sinks => sinks ++ stalledSubscriberIDs s pubLayer)
          else removeStalled s pubLayer l,
        subscriptions := s.subscriptions.map
          (fun p => if p.2 == pubLayer then (p.1, SimulcastLayer.low) else p) }
    | Option.none =>
      { s with
        publishers := removeStalled s pubLayer,
        subscriptions := s.subscriptions.map
          (fun p => if p.2 == pubLayer then (p.1, SimulcastLayer.none) else p) }

theorem mem_stalledSubscriberIDs (s : PublishedTrackState) (pubLayer : SimulcastLayer) (i : Nat)
    (hmem : (i, pubLayer) ∈ s.subscriptions) : i ∈ stalledSubscriberIDs s pubLayer :=
  List.mem_map_of_mem Prod.fst (List.mem_filter.mpr ⟨hmem, by simp⟩)

theorem not_mem_removeStalled (s : PublishedTrackState) (pubLayer : SimulcastLayer) (i : Nat)
    (hmem : (i, pubLayer) ∈ s.subscriptions) :
    ∀ sinks, removeStalled s pubLayer pubLayer = some sinks → i ∉ sinks := by
  intro sinks hsinks hin
  rcases hsrc : s.publishers pubLayer with _ | src
  · rw [removeStalled, if_pos rfl, hsrc] at hsinks
    cases hsinks
  · rw [removeStalled, if_pos rfl, hsrc, Option.map_some'] at hsinks
    have hfilter := List.mem_filter.mp (Option.some.inj hsinks ▸ hin)
    have hcontains : (stalledSubscriberIDs s pubLayer).contains i = false := by
      have := hfilter.2
      simpa using this
    have : (stalledSubscriberIDs s pubLayer).contains i = true :=
      List.elem_eq_true_of_mem (mem_stalledSubscriberIDs s pubLayer i hmem)
    rw [this] at hcontains
    cases hcontains

end SFU

/-- C2: when a publisher of layer L stalls while the source is not muted,
every subscription whose current layer is L is removed from that publisher
(unless L is itself the low layer, to which the removed subscriptions are
immediately re-attached); when a low publisher exists those subscriptions are
attached to it and marked `low`, otherwise they are marked `none`;
subscriptions on other layers keep their current layer. -/
theorem handleStalled_migrates_subscriptions (s : PublishedTrackState)
    (pubLayer : SimulcastLayer) (i : Nat) (hm : s.muted = false) :
    (((i, pubLayer) ∈ s.subscriptions ∧ (s.publishers SimulcastLayer.low).isSome = true) →
      (i, SimulcastLayer.low) ∈ (handleStalled s pubLayer).subscriptions ∧
      ∃ sinks, (handleStalled s pubLayer).publishers SimulcastLayer.low = some sinks ∧
        i ∈ sinks) ∧
    (((i, pubLayer) ∈ s.subscriptions ∧ s.publishers SimulcastLayer.low = Option.none) →
      (i, SimulcastLayer.none) ∈ (handleStalled s pubLayer).subscriptions) ∧
    (((i, pubLayer) ∈ s.subscriptions ∧
        (pubLayer = SimulcastLayer.low → s.publishers SimulcastLayer.low = Option.none)) →
      ∀ sinks, (handleStalled s pubLayer).publishers pubLayer = some sinks → i ∉ sinks) ∧
    (∀ l, (i, l) ∈ s.subscriptions → l ≠ pubLayer →
      (i, l) ∈ (handleStalled s pubLayer).subscriptions) := by
  refine ⟨?_, ?_, ?_, ?_⟩
  · rintro ⟨hmem, hlow⟩
    rcases hl : s.publishers SimulcastLayer.low with _ | sinks0
    · rw [hl] at hlow; cases hlow
    · constructor
      · simp only [handleStalled, hm, Bool.false_eq_true, if_false, hl]
        exact List.mem_map.mpr ⟨(i, pubLayer), hmem, by simp⟩
      · simp only [handleStalled, hm, Bool.false_eq_true, if_false, hl, if_pos rfl]
        by_cases hp : SimulcastLayer.low = pubLayer
        · rw [removeStalled, if_pos hp, hl, Option.map_some', Option.map_some']
          exact ⟨_, rfl, List.mem_append_right _ (mem_stalledSubscriberIDs s pubLayer i hmem)⟩
        · rw [removeStalled, if_neg hp, hl, Option.map_some']
          exact ⟨_, rfl, List.mem_append_right _ (mem_stalledSubscriberIDs s pubLayer i hmem)⟩
  · rintro ⟨hmem, hlow⟩
    simp only [handleStalled, hm, Bool.false_eq_true, if_false, hlow]
    exact List.mem_map.mpr ⟨(i, pubLayer), hmem, by simp⟩
  · rintro ⟨hmem, hcond⟩ sinks hsinks
    rcases hl : s.publishers SimulcastLayer.low with _ | sinks0
    · simp only [handleStalled, hm, Bool.false_eq_true, if_false, hl] at hsinks
      exact not_mem_removeStalled s pubLayer i hmem sinks hsinks
    · have hne : ¬pubLayer = SimulcastLayer.low := by
        intro hEq
        rw [hcond hEq] at hl
        cases hl
      simp only [handleStalled, hm, Bool.false_eq_true, if_false, hl] at hsinks
      rw [if_neg hne] at hsinks
      exact not_mem_removeStalled s pubLayer i hmem sinks hsinks
  · intro l hmem hne
    have hf : ((i, l).2 == pubLayer) = false := by
      simpa using hne
    rcases hl : s.publishers SimulcastLayer.low with _ | sinks0 <;>
      simp only [handleStalled, hm, Bool.false_eq_true, if_false, hl] <;>
      refine List.mem_map.mpr ⟨(i, l), hmem, by simp [hf]⟩

/-- A concrete published-track state: one medium-layer subscriber (id 1), a
medium publisher carrying it, and an idle low publisher. -/
def demoTrackState : PublishedTrackState :=
  { muted := false
    publishers := fun l =>
      if l = SimulcastLayer.low then some []
      else if l = SimulcastLayer.medium then some [1] else Option.none
    subscriptions := [(1, SimulcastLayer.medium)] }

/-- Closed instance of the C2 theorem: when the medium publisher stalls, its
single subscriber is re-attached to the low publisher and marked `low`. -/
theorem handleStalled_migrates_subscriptions_witness :
    (1, SimulcastLayer.low) ∈ (handleStalled demoTrackState SimulcastLayer.medium).subscriptions ∧
    ∃ sinks, (handleStalled demoTrackState SimulcastLayer.medium).publishers SimulcastLayer.low
        = some sinks ∧ 1 ∈ sinks :=
  (handleStalled_migrates_subscriptions demoTrackState SimulcastLayer.medium 1 rfl).1
    ⟨by decide, by rfl⟩

namespace SFU

/-! ## Subscriber layer selection (`getOptimalLayer`)

The implementation of `getOptimalLayer` lives in the published-track package,
which is not among the provided sources; only its test,
`TestGetOptimalLayer` (appended to pkg/peer/peer.go), is available. The
selector is therefore modelled from the spec and checked against every row
of that in-repo test table. -/

/-- Rank used to order simulcast layers from lowest to highest. -/
def layerRank (l : SimulcastLayer) : Nat :=
  match l with
  | SimulcastLayer.none => 0
  | SimulcastLayer.low => 1
  | SimulcastLayer.medium => 2
  | SimulcastLayer.high => 3

/-- Lowest layer of a non-empty list (`SimulcastLayer.none` for an empty
one). -/
def minAvailableLayer (layers : List SimulcastLayer) : SimulcastLayer :=
  match layers with
  | [] => SimulcastLayer.none
  | l :: rest =>
    rest.foldl (fun best cand => if layerRank cand < layerRank best then cand else best) l

/-- Highest layer of a non-empty list (`SimulcastLayer.none` for an empty
one). -/
def maxAvailableLayer (layers : List SimulcastLayer) : SimulcastLayer :=
  match layers with
  | [] => SimulcastLayer.none
  | l :: rest =>
    rest.foldl (fun best cand => if layerRank best < layerRank cand then cand else best) l

/-- Modelled from the spec: the implementation of `getOptimalLayer`
(published-track package) is absent from the sources; §4.6 specifies that the
selector takes the available layers, the source's declared `max_width ×
max_height` and the requested `desired_width × desired_height`, returning the
minimum layer whose effective pixel area covers the requested area (high
covers any request of at least the full source area, medium any request of at
least a quarter of it, low the rest), subject to the §8 tie-breaks: empty
layer set (audio) → `none`; undeclared dimensions or zero request → lowest
available layer; the chosen layer clamped to the available ones (minimum
available layer at or above the target, otherwise the highest available —
which also realizes "requested size exceeds the source maximum → highest
available layer"). -/
def getOptimalLayer (layers : List SimulcastLayer) (maxWidth maxHeight desiredWidth desiredHeight : Nat) :
    SimulcastLayer :=
  if layers.isEmpty then SimulcastLayer.none
  else
    if maxWidth * maxHeight = 0 ∨ desiredWidth * desiredHeight = 0 then
      minAvailableLayer layers
    else
      let fullArea := maxWidth * maxHeight
      let desiredArea := desiredWidth * desiredHeight
      let target :=
        if fullArea ≤ desiredArea then SimulcastLayer.high
        else if fullArea ≤ 4 * desiredArea then SimulcastLayer.medium
        else SimulcastLayer.low
      let atLeastTarget := layers.filter (fun l => layerRank target ≤ layerRank l)
      if atLeastTarget.isEmpty then maxAvailableLayer layers
      else minAvailableLayer atLeastTarget

end SFU

/-- C5: the layer selector returns `none` for an empty (audio) layer set,
the lowest available layer when no dimensions are declared or the request is
zero, the highest available layer when the request exceeds the source
maximum, and on the §8 scenario table it reproduces every row of the in-repo
`TestGetOptimalLayer`/`TestGetOptimalLayerNone` tables. -/
theorem getOptimalLayer_spec :
    (∀ w h dw dh, getOptimalLayer [] w h dw dh = SimulcastLayer.none) ∧
    (∀ layers dw dh, layers ≠ [] →
      getOptimalLayer layers 0 0 dw dh = minAvailableLayer layers) ∧
    (∀ layers w h, layers ≠ [] →
      getOptimalLayer layers w h 0 0 = minAvailableLayer layers) ∧
    (∀ layers w h dw dh, layers ≠ [] → 0 < w * h → w * h < dw * dh →
      getOptimalLayer layers w h dw dh = maxAvailableLayer layers) ∧
    (getOptimalLayer [SimulcastLayer.low, SimulcastLayer.medium, SimulcastLayer.high]
        1728 1056 878 799 = SimulcastLayer.medium ∧
      getOptimalLayer [SimulcastLayer.low, SimulcastLayer.medium, SimulcastLayer.high]
        1920 1080 320 240 = SimulcastLayer.low ∧
      getOptimalLayer [SimulcastLayer.low, SimulcastLayer.medium, SimulcastLayer.high]
        1920 1080 1900 1000 = SimulcastLayer.medium ∧
      getOptimalLayer [SimulcastLayer.low, SimulcastLayer.medium, SimulcastLayer.high]
        1920 1080 0 0 = SimulcastLayer.low ∧
      getOptimalLayer [SimulcastLayer.low, SimulcastLayer.medium, SimulcastLayer.high]
        1280 720 1280 720 = SimulcastLayer.high ∧
      getOptimalLayer [SimulcastLayer.low, SimulcastLayer.medium, SimulcastLayer.high]
        1280 720 640 480 = SimulcastLayer.medium ∧
      getOptimalLayer [SimulcastLayer.low, SimulcastLayer.medium, SimulcastLayer.high]
        1280 720 320 240 = SimulcastLayer.low ∧
      getOptimalLayer [SimulcastLayer.low, SimulcastLayer.medium]
        1280 720 1600 1000 = SimulcastLayer.medium ∧
      getOptimalLayer [SimulcastLayer.low, SimulcastLayer.medium]
        1280 720 500 500 = SimulcastLayer.medium ∧
      getOptimalLayer [SimulcastLayer.low] 1280 720 1600 1000 = SimulcastLayer.low ∧
      getOptimalLayer [SimulcastLayer.low] 1280 720 500 500 = SimulcastLayer.low ∧
      getOptimalLayer [SimulcastLayer.high, SimulcastLayer.medium, SimulcastLayer.low]
        0 0 1600 1000 = SimulcastLayer.low ∧
      getOptimalLayer [SimulcastLayer.high, SimulcastLayer.medium, SimulcastLayer.low]
        0 0 0 0 = SimulcastLayer.low ∧
      getOptimalLayer [SimulcastLayer.high, SimulcastLayer.medium, SimulcastLayer.low]
        600 400 0 0 = SimulcastLayer.low ∧
      getOptimalLayer [SimulcastLayer.high] 1280 720 200 200 = SimulcastLayer.high ∧
      getOptimalLayer [] 0 0 100 100 = SimulcastLayer.none) := by
  refine ⟨?_, ?_, ?_, ?_, ?_⟩
  · intro w h dw dh
    rfl
  · intro layers dw dh hne
    have : layers.isEmpty = false := by
      cases layers
      · exact absurd rfl hne
      · rfl
    simp [getOptimalLayer, this]
  · intro layers w h hne
    have : layers.isEmpty = false := by
      cases layers
      · exact absurd rfl hne
      · rfl
    simp [getOptimalLayer, this]
  · intro layers w h dw dh hne hpos hlt
    have hempty : layers.isEmpty = false := by
      cases layers
      · exact absurd rfl hne
      · rfl
    have hz : ¬(w * h = 0 ∨ dw * dh = 0) := by
      push_neg
      constructor
      · omega
      · omega
    have htarget : w * h ≤ dw * dh := Nat.le_of_lt hlt
    rw [getOptimalLayer, if_neg (by simp [hempty]), if_neg hz]
    simp only [htarget, if_pos]
    by_cases hh : SimulcastLayer.high ∈ layers
    · have hfilter : layers.filter (fun l => layerRank SimulcastLayer.high ≤ layerRank l)
          = layers.filter (fun l => l = SimulcastLayer.high) := by
        apply List.filter_congr
        intro l _
        cases l <;> simp [layerRank]
      rw [hfilter]
      have hmemf : SimulcastLayer.high ∈ layers.filter (fun l => l = SimulcastLayer.high) := by
        simp [hh]
      have hnef : (layers.filter (fun l => decide (l = SimulcastLayer.high))).isEmpty = false := by
        cases hfe : layers.filter (fun l => decide (l = SimulcastLayer.high))
        · rw [hfe] at hmemf; cases hmemf
        · rfl
      rw [if_neg (by simp [hnef])]
      have hall : ∀ l ∈ layers.filter (fun l => decide (l = SimulcastLayer.high)),
          l = SimulcastLayer.high := by
        intro l hl
        have := List.of_mem_filter hl
        simpa using this
      have hminHigh : minAvailableLayer (layers.filter (fun l => decide (l = SimulcastLayer.high)))
          = SimulcastLayer.high := by
        rcases hfe : layers.filter (fun l => decide (l = SimulcastLayer.high)) with _ | ⟨hd, tl⟩
        · rw [hfe] at hmemf; cases hmemf
        · have hhd : hd = SimulcastLayer.high := by
            apply hall
            rw [hfe]
            exact List.mem_cons_self hd tl
          rw [minAvailableLayer]
          subst hhd
          have : ∀ t : List SimulcastLayer, (∀ l ∈ t, l = SimulcastLayer.high) →
              t.foldl (fun best cand => if layerRank cand < layerRank best then cand else best)
                SimulcastLayer.high = SimulcastLayer.high := by
            intro t
            induction t with
            | nil => intro _; rfl
            | cons a as aih =>
              intro hat
              have ha : a = SimulcastLayer.high := hat a (List.mem_cons_self a as)
              subst ha
              rw [List.foldl_cons, if_neg (by simp)]
              exact aih (fun l hl => hat l (List.mem_cons_of_mem _ hl))
          apply this
          intro l hl
          apply hall
          rw [hfe]
          exact List.mem_cons_of_mem _ hl
      rw [hminHigh]
      have hmaxHigh : maxAvailableLayer layers = SimulcastLayer.high := by
        rcases layers with _ | ⟨hd, tl⟩
        · cases hh
        · rw [maxAvailableLayer]
          have : ∀ (t : List SimulcastLayer) (b : SimulcastLayer),
              b = SimulcastLayer.high ∨ SimulcastLayer.high ∈ t →
              t.foldl (fun best cand => if layerRank best < layerRank cand then cand else best) b
                = SimulcastLayer.high := by
            intro t
            induction t with
            | nil =>
              intro b hb
              rcases hb with hb | hb
              · exact hb
              · cases hb
            | cons a as aih =>
              intro b hb
              rw [List.foldl_cons]
              rcases hb with hb | hb
              · subst hb
                rw [if_neg (by cases a <;> simp [layerRank])]
                exact aih _ (Or.inl rfl)
              · rcases List.mem_cons.mp hb with hb | hb
                · subst hb
                  by_cases hba : layerRank b < layerRank SimulcastLayer.high
                  · rw [if_pos hba]
                    exact aih _ (Or.inl rfl)
                  · rw [if_neg hba]
                    have : b = SimulcastLayer.high := by
                      cases b <;> simp_all [layerRank]
                    exact aih _ (Or.inl this)
                · exact aih _ (Or.inr hb)
          rcases List.mem_cons.mp hh with hb | hb
          · exact this tl hd (Or.inl hb.symm)
          · exact this tl hd (Or.inr hb)
      rw [hmaxHigh]
    · have hfilter : layers.filter (fun l => layerRank SimulcastLayer.high ≤ layerRank l) = [] := by
        rw [List.filter_eq_nil_iff]
        intro l hl
        cases l <;> simp [layerRank]
        exact hh hl
      rw [hfilter]
      rfl
  · refine ⟨rfl, rfl, rfl, rfl, rfl, rfl, rfl, rfl, rfl, rfl, rfl, rfl, rfl, rfl, rfl, rfl⟩

/-- Closed instance of the C5 theorem: a request exceeding the source maximum
yields the highest available layer. -/
theorem getOptimalLayer_spec_witness :
    getOptimalLayer [SimulcastLayer.low, SimulcastLayer.medium] 10 10 20 20
      = maxAvailableLayer [SimulcastLayer.low, SimulcastLayer.medium] :=
  getOptimalLayer_spec.2.2.2.1 [SimulcastLayer.low, SimulcastLayer.medium] 10 10 20 20
    (by decide) (by decide) (by decide)

namespace SFU

/-! ## Key-frame request throttling (C6)

`PublishedTrack.canSendKeyframeAt` (pkg/conference/participant.go, lines
23-28) is "the timestamp at which we are allowed to send the FIR or PLI
request"; its consumer — the conference-side gate in front of
`Peer.WriteRTCP` — is not among the provided sources (`Peer.WriteRTCP`
itself does not throttle). Spec §4.3/§4.5: a key-frame request is forwarded
only when at least `minimal_pli_interval` (default 500 ms) has elapsed since
the last forwarded request. Time is modelled in milliseconds. -/

/-- Default `pli_min_interval_ms` (spec §6: `pli_min_interval_ms: int
(default 500)`). -/
def pliMinIntervalMsDefault : Nat := 500

/-- The throttle state: the `canSendKeyframeAt` timestamp of
`PublishedTrack`. -/
structure KeyframeThrottle where
  canSendKeyframeAt : Nat
deriving DecidableEq, Repr

/-- Modelled from the spec: the consumer of `canSendKeyframeAt` is absent
from the sources; per §4.3 a request arriving at time `now` is forwarded iff
the allowed timestamp has been reached, and a forwarded request pushes the
allowed timestamp `interval` past `now`. -/
def processKeyframeRequest (interval now : Nat) (s : KeyframeThrottle) :
    KeyframeThrottle × Bool :=
  if s.canSendKeyframeAt ≤ now then
    ({ canSendKeyframeAt := now + interval }, true)
  else
    (s, false)

/-- Runs the throttle over a sequence of request arrival times, returning the
times of the requests that were forwarded to the remote source. -/
def forwardedRequestTimes (interval : Nat) (s : KeyframeThrottle) :
    List Nat → List Nat
  | [] => []
  | t :: ts =>
    if s.canSendKeyframeAt ≤ t then
      t :: forwardedRequestTimes interval ⟨t + interval⟩ ts
    else
      forwardedRequestTimes interval s ts

theorem forwardedRequestTimes_lower_bound (interval : Nat) :
    ∀ (ts : List Nat) (s : KeyframeThrottle) (x : Nat),
      x ∈ forwardedRequestTimes interval s ts → s.canSendKeyframeAt ≤ x := by
  intro ts
  induction ts with
  | nil =>
    intro s x hx
    cases hx
  | cons t rest ih =>
    intro s x hx
    rw [forwardedRequestTimes] at hx
    by_cases ht : s.canSendKeyframeAt ≤ t
    · rw [if_pos ht] at hx
      rcases List.mem_cons.mp hx with hx | hx
      · exact hx ▸ ht
      · have hxx : t + interval ≤ x := ih ⟨t + interval⟩ x hx
        omega
    · rw [if_neg ht] at hx
      exact ih s x hx

end SFU

/-- C6: between any two key-frame requests forwarded through the throttle
gate, at least the PLI minimum interval elapses: the forwarded request times
are pairwise separated by at least `interval`, for every initial
`canSendKeyframeAt` and every arrival sequence; in particular this holds for
the default 500 ms interval. -/
theorem forwardedRequestTimes_throttled (interval : Nat) (s : KeyframeThrottle)
    (ts : List Nat) :
    List.Pairwise (fun a b => a + interval ≤ b) (forwardedRequestTimes interval s ts) ∧
    List.Pairwise (fun a b => a + pliMinIntervalMsDefault ≤ b)
      (forwardedRequestTimes pliMinIntervalMsDefault s ts) := by
  have key : ∀ (l : List Nat) (st : KeyframeThrottle) (iv : Nat),
      List.Pairwise (fun a b => a + iv ≤ b) (forwardedRequestTimes iv st l) := by
    intro l
    induction l with
    | nil =>
      intro st iv
      exact List.Pairwise.nil
    | cons t rest ih =>
      intro st iv
      rw [forwardedRequestTimes]
      by_cases ht : st.canSendKeyframeAt ≤ t
      · rw [if_pos ht]
        refine List.pairwise_cons.mpr ⟨?_, ih ⟨t + iv⟩ iv⟩
        intro b hb
        exact forwardedRequestTimes_lower_bound iv rest ⟨t + iv⟩ b hb
      · rw [if_neg ht]
        exact ih st iv
  exact ⟨key ts s interval, key ts s pliMinIntervalMsDefault⟩
